import Mathlib

/-!
Verification development for the quoting tool (browser app with quote
generation, editing, totals and persistence).

Modelling conventions:
  * JavaScript numbers are modelled as `Option ℚ` where `none` stands for
    NaN; floating-point rounding and infinities are not modelled (every
    claimed identity is an exact algebraic identity that the code computes
    with the same association of operations).
  * JavaScript/JSON values are modelled by the inductive type `JVal`;
    an absent value (`undefined`, e.g. a missing object field) is
    modelled as `none : Option JVal`.
  * Strings at the text-processing layer are modelled as `List Char`.
  * `Number(...)` string coercion supports decimal literals with optional
    sign, fraction and exponent; the exotic forms (hex/octal/binary
    literals, "Infinity") are not modelled, and neither is coercion of
    multi-element arrays; none of those shapes occur in the inputs the
    program feeds to these operations.
-/

namespace Orcamentos

/-! ### Character classes and numeric string coercion -/

/-- Whitespace as used by `String.prototype.trim` and the regex class
`\s` (ASCII part; the rare non-ASCII whitespace code points are not
modelled). -/
def isWs (c : Char) : Bool :=
  c = ' ' || c = '\t' || c = '\n' || c = '\r' || c = '\x0b' || c = '\x0c'

/-- Whitespace accepted between tokens by `JSON.parse`. -/
def isJsonWs (c : Char) : Bool :=
  c = ' ' || c = '\t' || c = '\n' || c = '\r'

def ltrimWs (cs : List Char) : List Char := cs.dropWhile isWs

/-- Remove trailing whitespace. -/
def rtrimWs : List Char → List Char
  | [] => []
  | c :: rest =>
    match rtrimWs rest with
    | [] => if isWs c then [] else [c]
    | d :: r => c :: d :: r

def trimWs (cs : List Char) : List Char := rtrimWs (ltrimWs cs)

def digitsToNat (cs : List Char) : ℕ :=
  cs.foldl (fun a c => 10 * a + (c.toNat - 48)) 0

/-- Exponent digits of a numeric string: the remaining characters must all
be digits (anything else makes the whole coercion NaN). -/
def expDigits (cs : List Char) (neg : Bool) : Option ℤ :=
  if cs.isEmpty || !(cs.all Char.isDigit) then none
  else some (if neg then -(digitsToNat cs : ℤ) else (digitsToNat cs : ℤ))

def expTail : List Char → Option ℤ
  | '+' :: r => expDigits r false
  | '-' :: r => expDigits r true
  | r => expDigits r false

/-- Optional exponent part; an empty remainder means exponent 0. -/
def expPart : List Char → Option ℤ
  | [] => some 0
  | 'e' :: r => expTail r
  | 'E' :: r => expTail r
  | _ => none

def mantissa (ip fp : List Char) : ℚ :=
  (digitsToNat ip : ℚ) + (digitsToNat fp : ℚ) / (10 : ℚ) ^ fp.length

/-- Unsigned decimal literal with optional fraction and exponent. -/
def parseDecL (cs : List Char) : Option ℚ :=
  let ip := cs.takeWhile Char.isDigit
  let r1 := cs.drop ip.length
  match r1 with
  | '.' :: r2 =>
    let fp := r2.takeWhile Char.isDigit
    let r3 := r2.drop fp.length
    if ip.isEmpty && fp.isEmpty then none
    else (expPart r3).map (fun e => mantissa ip fp * (10 : ℚ) ^ e)
  | _ =>
    if ip.isEmpty then none
    else (expPart r1).map (fun e => (digitsToNat ip : ℚ) * (10 : ℚ) ^ e)

/-- JavaScript `Number(string)` (StringToNumber): trim, empty means 0,
otherwise an optionally signed decimal literal; anything else is NaN
(`none`). -/
def strToNumL (cs : List Char) : Option ℚ :=
  match trimWs cs with
  | [] => some 0
  | '-' :: rest => (parseDecL rest).map (fun q => -q)
  | '+' :: rest => parseDecL rest
  | t => parseDecL t

def strToNum (s : String) : Option ℚ := strToNumL s.data

/-! ### JavaScript values -/

/-- JavaScript values as they occur in this program: JSON data plus the
NaN number. `undefined` is represented as `none : Option JVal` at use
sites. -/
inductive JVal where
  | null : JVal
  | nan : JVal
  | bool (b : Bool) : JVal
  | num (q : ℚ) : JVal
  | str (s : String) : JVal
  | arr (elems : List JVal) : JVal
  | obj (fields : List (String × JVal)) : JVal

/-- JavaScript truthiness of a value. -/
def toBoolV : JVal → Bool
  | .null => false
  | .nan => false
  | .bool b => b
  | .num q => if q = 0 then false else true
  | .str s => if s = "" then false else true
  | .arr _ => true
  | .obj _ => true

/-- Truthiness of a possibly-undefined value. -/
def toBoolO : Option JVal → Bool
  | none => false
  | some v => toBoolV v

/-- JavaScript `Number(value)` coercion. Arrays are modelled only in the
singleton-number and empty cases (the program never coerces other array
shapes). -/
def toNumberV : JVal → Option ℚ
  | .null => some 0
  | .nan => none
  | .bool b => some (if b then 1 else 0)
  | .num q => some q
  | .str s => strToNum s
  | .arr [] => some 0
  | .arr [.num q] => some q
  | .arr _ => none
  | .obj _ => none

def toNumberO : Option JVal → Option ℚ
  | none => none
  | some v => toNumberV v

/-- Result of a successful (non-throwing) property access on a non-null
receiver: objects yield the last binding of the key, every other value
yields `undefined`. -/
def fieldLookup : JVal → String → Option JVal
  | .obj fields, k => fields.foldl (fun acc p => if p.1 = k then some p.2 else acc) none
  | _, _ => none

/-- Internal message of the TypeError thrown by property access on
`null`; the runtime's exact wording is never observable here because the
`catch` in `generateQuote` replaces every exception. -/
def typeErrorMsg : String := "TypeError: Cannot read properties of null"

/-- Property access `v.k` as JavaScript evaluates it: a `null` receiver
throws a TypeError (an `undefined` receiver cannot occur here — neither
`JSON.parse` output nor array elements are ever `undefined`); any other
receiver yields `fieldLookup`. -/
def getProp (v : JVal) (k : String) : Except String (Option JVal) :=
  match v with
  | .null => Except.error typeErrorMsg
  | v => Except.ok (fieldLookup v k)

/-- Nullish test (`undefined` or `null`), as used by `??` and `?.`. -/
def jsNullishO : Option JVal → Bool
  | none => true
  | some .null => true
  | some _ => false

/-- Nullish coalescing `a ?? b`. -/
def coalesce (a b : Option JVal) : Option JVal :=
  if jsNullishO a then b else a

/-- Optional chaining `a?.k`: short-circuits to `undefined` on a nullish
receiver, so the access itself (on a non-null value) never throws. -/
def optChain (a : Option JVal) (k : String) : Option JVal :=
  if jsNullishO a then none
  else match a with
       | some v => fieldLookup v k
       | none => none

/-- JavaScript `a || b` where `a` may be `undefined` and `b` is a plain
value. -/
def jsOrO (a : Option JVal) (b : JVal) : JVal :=
  match a with
  | some v => if toBoolV v then v else b
  | none => b

/-! ### NaN-propagating arithmetic on JavaScript numbers -/

def jadd : Option ℚ → Option ℚ → Option ℚ
  | some a, some b => some (a + b)
  | _, _ => none

def jmul : Option ℚ → Option ℚ → Option ℚ
  | some a, some b => some (a * b)
  | _, _ => none

/-- Division by the literal 100 (`x / 100`). -/
def jdiv100 : Option ℚ → Option ℚ
  | some a => some (a / 100)
  | none => none

/-- `Number(x) || 0` applied to an already-coerced number. -/
def orZero : Option ℚ → ℚ
  | some a => a
  | none => 0

/-- `Number(x) || 1` applied to an already-coerced number (note that the
value 0 is falsy and also falls back to 1). -/
def orOne : Option ℚ → ℚ
  | some a => if a = 0 then 1 else a
  | none => 1

/-! ### Quote steps and the totals calculators

`RawStep` models a `QuoteStep` record as it exists in memory or after a
round-trip through JSON: every field may hold an arbitrary value or be
absent. -/

structure RawStep where
  title : Option JVal
  description : Option JVal
  suggestedPrice : Option JVal
  suggestedUnit : Option JVal
  userPrice : Option JVal
  quantity : Option JVal
  taxRate : Option JVal

def mkStep (up qv tv : Option JVal) : RawStep :=
  { title := none, description := none, suggestedPrice := none,
    suggestedUnit := none, userPrice := up, quantity := qv, taxRate := tv }

def mkNumStep (p q t : ℚ) : RawStep :=
  mkStep (some (JVal.num p)) (some (JVal.num q)) (some (JVal.num t))

/-- One step's term of the subtotal reduce in `QuoteResult`
(`Number(step.userPrice || 0) * Number(step.quantity || 0)`). -/
def subTerm (step : RawStep) : Option ℚ :=
  jmul (toNumberV (jsOrO step.userPrice (JVal.num 0)))
       (toNumberV (jsOrO step.quantity (JVal.num 0)))

/-- One step's term of the tax reduce in `QuoteResult`
(`(Number(p || 0) * Number(q || 0)) * (Number(t || 0) / 100)`). -/
def taxTerm (step : RawStep) : Option ℚ :=
  jmul (subTerm step) (jdiv100 (toNumberV (jsOrO step.taxRate (JVal.num 0))))

/-- `subtotal` of the `useMemo` in `QuoteResult.tsx`. -/
def subtotalCalc (steps : List RawStep) : Option ℚ :=
  steps.foldl (fun acc step => jadd acc (subTerm step)) (some 0)

/-- `totalTax` of the `useMemo` in `QuoteResult.tsx`. -/
def totalTaxCalc (steps : List RawStep) : Option ℚ :=
  steps.foldl (fun acc step => jadd acc (taxTerm step)) (some 0)

/-- `grandTotal = subtotal + totalTax` of the `useMemo` in
`QuoteResult.tsx`. -/
def grandTotalCalc (steps : List RawStep) : Option ℚ :=
  jadd (subtotalCalc steps) (totalTaxCalc steps)

/-- `lineTotal` of the step renderer in `QuoteResult.tsx`
(`(Number(step.userPrice) || 0) * (Number(step.quantity) || 0)`). -/
def lineTotal (step : RawStep) : ℚ :=
  orZero (toNumberO step.userPrice) * orZero (toNumberO step.quantity)

/-- `lineTotalWithTax` of the step renderer in `QuoteResult.tsx`. -/
def lineTotalWithTax (step : RawStep) : ℚ :=
  lineTotal step * (1 + orZero (toNumberO step.taxRate) / 100)

/-- `totalPrice` of the history listing in `QuoteHistory`
(`Number(quantity) || 1` — quantity defaults to 1 for legacy records). -/
def totalPrice (steps : List RawStep) : ℚ :=
  steps.foldl (fun acc step =>
    let price := orZero (toNumberO step.userPrice)
    let tax := orZero (toNumberO step.taxRate)
    let quantity := orOne (toNumberO step.quantity)
    acc + (price * quantity) * (1 + tax / 100)) 0

def setUserPrice0 (s : RawStep) : RawStep := { s with userPrice := some (JVal.num 0) }
def setQuantity0 (s : RawStep) : RawStep := { s with quantity := some (JVal.num 0) }
def setTaxRate0 (s : RawStep) : RawStep := { s with taxRate := some (JVal.num 0) }

/-! ### Quotes, edit handlers and saved-quote update -/

/-- A quote as far as the claimed operations observe it (the remaining
`QuoteData` fields — date, client data, currency, city — are carried
along unchanged by every operation modelled here). -/
structure RawQuote where
  id : String
  title : Option JVal
  steps : List RawStep

/-- In-place step update `newSteps[index] = { ...newSteps[index], ... }`
for an in-range index (the handlers are only invoked with indices of
rendered steps). -/
def updateStepAt : List RawStep → ℕ → (RawStep → RawStep) → List RawStep
  | [], _, _ => []
  | s :: rest, 0, f => f s :: rest
  | s :: rest, n + 1, f => s :: updateStepAt rest n f

/-- `handlePriceChange` of `QuoteResult.tsx`: applies only when
`Number(value)` is not NaN. -/
def handlePriceChange (q : RawQuote) (index : ℕ) (value : String) : RawQuote :=
  match strToNum value with
  | some newPrice =>
    let f := fun s => { s with userPrice := some (JVal.num newPrice) }
    { q with steps := updateStepAt q.steps index f }
  | none => q

/-- `handleQuantityChange` of `QuoteResult.tsx`: applies only when
`Number(value)` is not NaN and is non-negative. -/
def handleQuantityChange (q : RawQuote) (index : ℕ) (value : String) : RawQuote :=
  match strToNum value with
  | some newQuantity =>
    if 0 ≤ newQuantity then
      let f := fun s => { s with quantity := some (JVal.num newQuantity) }
      { q with steps := updateStepAt q.steps index f }
    else q
  | none => q

/-- `handleTaxChange` of `QuoteResult.tsx`: applies only when
`Number(value)` is not NaN. -/
def handleTaxChange (q : RawQuote) (index : ℕ) (value : String) : RawQuote :=
  match strToNum value with
  | some newTaxRate =>
    let f := fun s => { s with taxRate := some (JVal.num newTaxRate) }
    { q with steps := updateStepAt q.steps index f }
  | none => q

/-- All numeric quantities in a quote are non-negative. -/
def QtyInv (q : RawQuote) : Prop :=
  ∀ s ∈ q.steps, ∀ x : ℚ, s.quantity = some (JVal.num x) → 0 ≤ x

/-- `handleUpdateQuote` of `App.tsx`:
`prev.map(q => q.id === updatedQuote.id ? updatedQuote : q)`. -/
def handleUpdateQuote (prev : List RawQuote) (updatedQuote : RawQuote) : List RawQuote :=
  prev.map (fun q => if q.id = updatedQuote.id then updatedQuote else q)

/-! ### API-key startup check (`geminiService.ts`, module top level) -/

/-- An environment variable: `none` when unset. A set-but-empty string is
falsy in the checks below. -/
def strTruthy : Option String → Bool
  | none => false
  | some s => if s = "" then false else true

/-- `getApiKey`: the `process.env.API_KEY` source is consulted first,
then the Vite `VITE_API_KEY` source; each is used only when truthy. -/
def getApiKey (procKey viteKey : Option String) : Option String :=
  if strTruthy procKey then procKey
  else if strTruthy viteKey then viteKey
  else none

def apiKeyErrorMsg : String :=
  "API Key não encontrada. Por favor, configure a variável de ambiente VITE_API_KEY (ou API_KEY) nas configurações do seu projeto no Vercel."

/-- The module-level statements `const apiKey = getApiKey(); if (!apiKey)
throw ...` that run at import time, before any service function can be
called. Returns the key the client is constructed with. -/
def startupCheck (procKey viteKey : Option String) : Except String String :=
  match getApiKey procKey viteKey with
  | some k => if k = "" then Except.error apiKeyErrorMsg else Except.ok k
  | none => Except.error apiKeyErrorMsg

/-! ### Fence stripping

Model of the search for `/(3 backticks)(json)?\s*([\s\S]*?)\s*(3 backticks)/`
in `generateQuote`: the match starts at the leftmost run of three
backticks from which a closing run can still be reached; the optional
literal tag `json` is consumed greedily; `\s*` then consumes the maximal
whitespace run; the lazy group 2 ends at the earliest position from which
the rest of the text starts with whitespace followed by three backticks. -/

def backtick : Char := Char.ofNat 96

/-- Does the text start with three backticks? -/
def startsWithTicks : List Char → Bool
  | a :: b :: c :: _ => a = backtick && b = backtick && c = backtick
  | _ => false

/-- Does the text contain three consecutive backticks anywhere? -/
def containsTriple : List Char → Bool
  | a :: b :: c :: rest =>
    (a = backtick && b = backtick && c = backtick) || containsTriple (b :: c :: rest)
  | _ => false

/-- The lazy part of the regex: collect characters until the first
position from which (optional) whitespace is followed by three backticks;
`none` when no closing run exists. -/
def scanClose : List Char → Option (List Char)
  | [] => none
  | c :: rest =>
    if startsWithTicks (List.dropWhile isWs (c :: rest)) then some []
    else (scanClose rest).map (fun g => c :: g)

/-- Attempt the regex match at a position already known to start with
three backticks; returns capture group 2. -/
def matchAt (cs : List Char) : Option (List Char) :=
  let afterOpen := cs.drop 3
  let afterTag := if afterOpen.take 4 = ['j', 's', 'o', 'n'] then afterOpen.drop 4 else afterOpen
  scanClose (afterTag.dropWhile isWs)

/-- Leftmost regex match over the whole text: capture group 2, or `none`
when the regex does not match. -/
def stripFenceCore : List Char → Option (List Char)
  | [] => none
  | c :: rest =>
    if startsWithTicks (c :: rest) then
      match matchAt (c :: rest) with
      | some g => some g
      | none => stripFenceCore rest
    else stripFenceCore rest

/-- The candidate text handed to `JSON.parse`: the trimmed response, with
a fenced block's inner content substituted when the regex matches with a
truthy (non-empty) group 2 (`if (jsonMatch && jsonMatch[2])`). -/
def candidateText (text : List Char) : List Char :=
  let jsonText := trimWs text
  match stripFenceCore jsonText with
  | some inner => if inner.isEmpty then jsonText else inner
  | none => jsonText

/-! ### JSON.parse -/

def skipJWs (cs : List Char) : List Char := cs.dropWhile isJsonWs

def hexVal (c : Char) : Option ℕ :=
  if c.isDigit then some (c.toNat - 48)
  else if 'a' ≤ c && c ≤ 'f' then some (c.toNat - 87)
  else if 'A' ≤ c && c ≤ 'F' then some (c.toNat - 55)
  else none

def escChar : Char → Option Char
  | '"' => some '"'
  | '\\' => some '\\'
  | '/' => some '/'
  | 'b' => some '\x08'
  | 'f' => some '\x0c'
  | 'n' => some '\n'
  | 'r' => some '\r'
  | 't' => some '\t'
  | _ => none

/-- Body of a JSON string after the opening quote: returns the decoded
characters and the rest of the input after the closing quote. Surrogate
pairs in `\u` escapes are not modelled (no input in this development
contains them). -/
def parseStringBody : List Char → Option (List Char × List Char)
  | [] => none
  | '"' :: r => some ([], r)
  | '\\' :: 'u' :: h1 :: h2 :: h3 :: h4 :: r =>
    match hexVal h1, hexVal h2, hexVal h3, hexVal h4 with
    | some a, some b, some c, some d =>
      (parseStringBody r).map (fun p => (Char.ofNat (((a * 16 + b) * 16 + c) * 16 + d) :: p.1, p.2))
    | _, _, _, _ => none
  | '\\' :: e :: r =>
    match escChar e with
    | some c => (parseStringBody r).map (fun p => (c :: p.1, p.2))
    | none => none
  | c :: r =>
    if c.toNat < 32 then none
    else (parseStringBody r).map (fun p => (c :: p.1, p.2))

def parseExpDigits (cs : List Char) (neg : Bool) : Option (ℤ × List Char) :=
  let d := cs.takeWhile Char.isDigit
  if d.isEmpty then none
  else some ((if neg then -(digitsToNat d : ℤ) else (digitsToNat d : ℤ)), cs.drop d.length)

def parseExpTail : List Char → Option (ℤ × List Char)
  | '+' :: r => parseExpDigits r false
  | '-' :: r => parseExpDigits r true
  | r => parseExpDigits r false

def parseNumExp : List Char → Option (ℤ × List Char)
  | 'e' :: r => parseExpTail r
  | 'E' :: r => parseExpTail r
  | cs => some (0, cs)

/-- An unsigned JSON number starting at the input (integer part, optional
fraction needing at least one digit, optional exponent). Leading-zero
strictness of the JSON grammar is not enforced (never exercised). -/
def parseNum (cs : List Char) : Option (ℚ × List Char) :=
  let ip := cs.takeWhile Char.isDigit
  if ip.isEmpty then none
  else
    let r1 := cs.drop ip.length
    match r1 with
    | '.' :: r2 =>
      let fp := r2.takeWhile Char.isDigit
      if fp.isEmpty then none
      else
        let r3 := r2.drop fp.length
        (parseNumExp r3).map (fun p => (mantissa ip fp * (10 : ℚ) ^ p.1, p.2))
    | _ =>
      (parseNumExp r1).map (fun p => ((digitsToNat ip : ℚ) * (10 : ℚ) ^ p.1, p.2))

mutual

/-- One JSON value starting at the input (no leading whitespace);
fuel-bounded recursive descent. -/
def parseValue : ℕ → List Char → Option (JVal × List Char)
  | 0, _ => none
  | fuel + 1, cs =>
    match cs with
    | 'n' :: 'u' :: 'l' :: 'l' :: r => some (JVal.null, r)
    | 't' :: 'r' :: 'u' :: 'e' :: r => some (JVal.bool true, r)
    | 'f' :: 'a' :: 'l' :: 's' :: 'e' :: r => some (JVal.bool false, r)
    | '"' :: r => (parseStringBody r).map (fun p => (JVal.str (String.mk p.1), p.2))
    | '[' :: r =>
      (match skipJWs r with
       | ']' :: r2 => some (JVal.arr [], r2)
       | r1 => (parseElems fuel r1).map (fun p => (JVal.arr p.1, p.2)))
    | '{' :: r =>
      (match skipJWs r with
       | '}' :: r2 => some (JVal.obj [], r2)
       | r1 => (parseMembers fuel r1).map (fun p => (JVal.obj p.1, p.2)))
    | '-' :: r => (parseNum r).map (fun p => (JVal.num (-p.1), p.2))
    | _ => (parseNum cs).map (fun p => (JVal.num p.1, p.2))

/-- Comma-separated array elements up to and including `]`. -/
def parseElems : ℕ → List Char → Option (List JVal × List Char)
  | 0, _ => none
  | fuel + 1, cs =>
    match parseValue fuel cs with
    | none => none
    | some (v, r) =>
      match skipJWs r with
      | ',' :: r2 => (parseElems fuel (skipJWs r2)).map (fun p => (v :: p.1, p.2))
      | ']' :: r2 => some ([v], r2)
      | _ => none

/-- Comma-separated object members up to and including `}`. -/
def parseMembers : ℕ → List Char → Option (List (String × JVal) × List Char)
  | 0, _ => none
  | fuel + 1, cs =>
    match cs with
    | '"' :: r =>
      (match parseStringBody r with
       | none => none
       | some (key, r1) =>
         match skipJWs r1 with
         | ':' :: r2 =>
           (match parseValue fuel (skipJWs r2) with
            | none => none
            | some (v, r3) =>
              match skipJWs r3 with
              | ',' :: r4 => (parseMembers fuel (skipJWs r4)).map
                  (fun p => ((String.mk key, v) :: p.1, p.2))
              | '}' :: r4 => some ([(String.mk key, v)], r4)
              | _ => none)
         | _ => none)
    | _ => none

end

/-- `JSON.parse`: one value surrounded by optional whitespace, nothing
after it. -/
def jsonParse (cs : List Char) : Option JVal :=
  match parseValue (cs.length + 1) (skipJWs cs) with
  | some (v, rest) => if (skipJWs rest).isEmpty then some v else none
  | none => none

/-! ### Quote-shape validation and step normalization (`generateQuote`) -/

/-- A normalized quote step as built by `generateQuote`
(`Number(...)`-coerced fields; `taxRate` is the literal 0). -/
structure ParsedStep where
  title : Option JVal
  description : Option JVal
  suggestedPrice : Option ℚ
  suggestedUnit : Option JVal
  quantity : Option ℚ
  userPrice : Option ℚ
  taxRate : ℚ

/-- The quote fragment returned by `generateQuote` (currency and city are
the call's own parameters, passed through unchanged, and are omitted). -/
structure ParsedQuote where
  title : Option JVal
  summary : Option JVal
  executionTime : JVal
  paymentTerms : JVal
  steps : List ParsedStep

/-- Normalization of one raw step object
(`step.suggestedPrice?.unitPrice ?? step.suggestedPrice ?? 0` etc.).
The plain accesses `step.suggestedPrice`, `step.suggestedQuantity`,
`step.title`, `step.description` all throw on a null step; the first
one evaluated is `step.suggestedPrice`, so a null step fails there. -/
def parseStep (step : JVal) : Except String ParsedStep :=
  match getProp step "suggestedPrice" with
  | Except.error e => Except.error e
  | Except.ok sp =>
    let unitPrice := coalesce (coalesce (optChain sp "unitPrice") sp) (some (JVal.num 0))
    let unit := optChain sp "unit"
    match getProp step "suggestedQuantity" with
    | Except.error e => Except.error e
    | Except.ok quantity0 =>
      let quantity := coalesce quantity0 (some (JVal.num 1))
      match getProp step "title", getProp step "description" with
      | Except.ok title, Except.ok description =>
        Except.ok { title := title
                    description := description
                    suggestedPrice := toNumberO unitPrice
                    suggestedUnit := unit
                    quantity := toNumberO quantity
                    userPrice := toNumberO unitPrice
                    taxRate := 0 }
      | Except.error e, _ => Except.error e
      | _, Except.error e => Except.error e

/-- `parsedJson.steps.map(step => ...)`: elements are normalized left to
right and the first thrown TypeError aborts the whole map. -/
def mapParseSteps : List JVal → Except String (List ParsedStep)
  | [] => Except.ok []
  | s :: rest =>
    match parseStep s with
    | Except.error e => Except.error e
    | Except.ok p =>
      match mapParseSteps rest with
      | Except.error e => Except.error e
      | Except.ok ps => Except.ok (p :: ps)

/-- The pure record `parseStep` produces on a non-null step; only used to
state what the successful path computes. -/
def parsedStepOf (s : JVal) : ParsedStep :=
  let sp := fieldLookup s "suggestedPrice"
  let unitPrice := coalesce (coalesce (optChain sp "unitPrice") sp) (some (JVal.num 0))
  { title := fieldLookup s "title"
    description := fieldLookup s "description"
    suggestedPrice := toNumberO unitPrice
    suggestedUnit := optChain sp "unit"
    quantity := toNumberO (coalesce (fieldLookup s "suggestedQuantity") (some (JVal.num 1)))
    userPrice := toNumberO unitPrice
    taxRate := 0 }

def shapeErrMsg : String := "A resposta da IA não corresponde ao formato esperado."
def malformedMsg : String := "A resposta da IA não estava em um formato JSON válido."

/-- Building the quote fragment from parsed JSON:
`if (parsedJson.title && Array.isArray(parsedJson.steps)) { map; return
{...} } else { throw shape error }`. The access `parsedJson.title`
throws on a null `parsedJson`; a non-array or missing `steps` (with a
truthy title) raises the shape error; a null steps element propagates
the TypeError out of the map. All of these are exceptions inside the
`try` of `generateQuote`. -/
def quoteFromJson (v : JVal) : Except String ParsedQuote :=
  match getProp v "title" with
  | Except.error e => Except.error e
  | Except.ok title =>
    if toBoolO title then
      match getProp v "steps" with
      | Except.error e => Except.error e
      | Except.ok (some (JVal.arr xs)) =>
        (match mapParseSteps xs with
         | Except.error e => Except.error e
         | Except.ok stepsWithUserPrice =>
           match getProp v "summary", getProp v "executionTime", getProp v "paymentTerms" with
           | Except.ok summary, Except.ok executionTime, Except.ok paymentTerms =>
             Except.ok { title := title
                         summary := summary
                         executionTime := jsOrO executionTime (JVal.str "A definir")
                         paymentTerms := jsOrO paymentTerms (JVal.str "A combinar")
                         steps := stepsWithUserPrice }
           | Except.error e, _, _ => Except.error e
           | _, Except.error e, _ => Except.error e
           | _, _, Except.error e => Except.error e)
      | Except.ok _ => Except.error shapeErrMsg
    else Except.error shapeErrMsg

/-- The body of the `try` block of `generateQuote` (lines 110-145):
trim, strip a fenced block, `JSON.parse`, shape check, normalize. A
`JSON.parse` syntax error is an internal exception like the shape error;
both are observable only until the `catch`. -/
def tryBlockQuote (text : List Char) : Except String ParsedQuote :=
  match jsonParse (candidateText text) with
  | none => Except.error "SyntaxError: JSON.parse"
  | some v => quoteFromJson v

/-- `generateQuote`'s response handling including the `catch` block: any
exception thrown inside the `try` — the `JSON.parse` syntax error and
also the shape-mismatch error thrown on line 144 — is replaced by the
single malformed-response error. -/
def generateQuoteParse (text : List Char) : Except String ParsedQuote :=
  match tryBlockQuote text with
  | Except.ok q => Except.ok q
  | Except.error _ => Except.error malformedMsg

/-- A payload wrapped in a fenced block tagged `json`:
three backticks, `json`, newline, payload, newline, three backticks. -/
def wrapTagged (s : List Char) : List Char :=
  backtick :: backtick :: backtick :: 'j' :: 's' :: 'o' :: 'n' :: '\n' ::
    (s ++ '\n' :: backtick :: backtick :: backtick :: [])

/-- A payload wrapped in an untagged fenced block. -/
def wrapPlain (s : List Char) : List Char :=
  backtick :: backtick :: backtick :: '\n' ::
    (s ++ '\n' :: backtick :: backtick :: backtick :: [])

/-! ### Concrete inputs used by witnesses and counterexamples -/

/-- A step whose `userPrice` is a truthy non-numeric string. -/
def ceBadStep : RawStep :=
  mkStep (some (JVal.str "abc")) (some (JVal.num 1)) (some (JVal.num 0))

def exampleSteps : List RawStep := [mkNumStep 50 1 0, mkNumStep 30 3 10]

def q0 : RawQuote := { id := "q1", title := none, steps := [mkNumStep 10 2 0] }

def qW : RawQuote := { id := "q2", title := none, steps := [mkNumStep 5 1 23] }

def qA : RawQuote := { id := "a", title := some (JVal.str "Obra A"), steps := [] }
def qB : RawQuote := { id := "b", title := some (JVal.str "Obra B"), steps := [] }
def uB : RawQuote := { id := "b", title := some (JVal.str "Obra B editada"), steps := [] }

def vexStep1 : JVal :=
  JVal.obj [("title", JVal.str "Etapa 1"),
            ("suggestedPrice", JVal.obj [("unitPrice", JVal.num 50), ("unit", JVal.str "m2")]),
            ("suggestedQuantity", JVal.num 2)]
def vexStep2 : JVal := JVal.obj [("suggestedPrice", JVal.num 30)]
def vexStep3 : JVal := JVal.obj []
def vexSteps : List JVal := [vexStep1, vexStep2, vexStep3]
def vex : JVal := JVal.obj [("title", JVal.str "Pintura"), ("steps", JVal.arr vexSteps)]

/-- Quote-shaped JSON (truthy `title`, array `steps`) whose single steps
element is `null`. -/
def vNull : JVal := JVal.obj [("title", JVal.str "T"), ("steps", JVal.arr [JVal.null])]

/-- The same payload as response text. -/
def vNullText : List Char := "\x7b\"title\":\"T\",\"steps\":[null]\x7d".data

/-- Syntactically valid JSON that lacks a `steps` array. -/
def shapeBadInput : List Char := "\x7b\"title\": \"Obra\"\x7d".data

/-- Syntactically invalid JSON. -/
def synBadInput : List Char := "not json".data

/-- A valid JSON quote payload whose `title` string contains three
backticks. -/
def fencedCePayload : List Char := "\x7b\"title\":\"a```b\",\"steps\":[]\x7d".data

/-- A plain valid JSON quote payload (no backticks). -/
def simplePayload : List Char := "\x7b\"title\":\"T\",\"steps\":[]\x7d".data

/-! ## Lemmas -/

theorem jsOr_num_zero (p : ℚ) :
    toNumberV (jsOrO (some (JVal.num p)) (JVal.num 0)) = some p := by
  by_cases hp : p = 0 <;> simp [jsOrO, toBoolV, toNumberV, hp]

theorem subTerm_num (p q t : ℚ) : subTerm (mkNumStep p q t) = some (p * q) := by
  simp [subTerm, mkNumStep, mkStep, jsOr_num_zero, jmul]

theorem taxTerm_num (p q t : ℚ) :
    taxTerm (mkNumStep p q t) = some (p * q * (t / 100)) := by
  have ht : (mkNumStep p q t).taxRate = some (JVal.num t) := rfl
  rw [taxTerm, subTerm_num, ht, jsOr_num_zero]
  rfl

theorem lineTotal_num (p q t : ℚ) : lineTotal (mkNumStep p q t) = p * q := by
  simp [lineTotal, mkNumStep, mkStep, toNumberO, toNumberV, orZero]

theorem lineTotalWithTax_num (p q t : ℚ) :
    lineTotalWithTax (mkNumStep p q t) = p * q * (1 + t / 100) := by
  have ht : (mkNumStep p q t).taxRate = some (JVal.num t) := rfl
  rw [lineTotalWithTax, lineTotal_num, ht]
  rfl

theorem foldl_jadd (f : RawStep → Option ℚ) (g : RawStep → ℚ) (l : List RawStep)
    (h : ∀ s ∈ l, f s = some (g s)) :
    ∀ a : ℚ, l.foldl (fun acc s => jadd acc (f s)) (some a) = some (a + (l.map g).sum) := by
  induction l with
  | nil => intro a; simp
  | cons s t ih =>
    intro a
    have hs : f s = some (g s) := h s (by simp)
    have ht : ∀ x ∈ t, f x = some (g x) := fun x hx => h x (by simp [hx])
    rw [List.foldl_cons]
    have h1 : jadd (some a) (f s) = some (a + g s) := by rw [hs]; rfl
    rw [h1, ih ht (a + g s), List.map_cons, List.sum_cons, add_assoc]

theorem foldl_jadd_replace (F : RawStep → Option ℚ) (s s' : RawStep) (h : F s = F s')
    (l r : List RawStep) (i : Option ℚ) :
    (l ++ s :: r).foldl (fun acc x => jadd acc (F x)) i =
      (l ++ s' :: r).foldl (fun acc x => jadd acc (F x)) i := by
  simp [List.foldl_append, h]

theorem jsOr_falsy (a : Option JVal) (d : JVal) (h : toBoolO a = false) : jsOrO a d = d := by
  cases a with
  | none => rfl
  | some v => simp only [toBoolO] at h; simp [jsOrO, h]

theorem subTerm_price0 (s : RawStep) (h : toBoolO s.userPrice = false) :
    subTerm s = subTerm (setUserPrice0 s) := by
  have : toBoolO (some (JVal.num 0)) = false := by simp [toBoolO, toBoolV]
  simp [subTerm, setUserPrice0, jsOr_falsy _ _ h, jsOr_falsy _ _ this]

theorem subTerm_qty0 (s : RawStep) (h : toBoolO s.quantity = false) :
    subTerm s = subTerm (setQuantity0 s) := by
  have : toBoolO (some (JVal.num 0)) = false := by simp [toBoolO, toBoolV]
  simp [subTerm, setQuantity0, jsOr_falsy _ _ h, jsOr_falsy _ _ this]

theorem subTerm_tax0 (s : RawStep) : subTerm s = subTerm (setTaxRate0 s) := by
  simp [subTerm, setTaxRate0]

theorem taxTerm_price0 (s : RawStep) (h : toBoolO s.userPrice = false) :
    taxTerm s = taxTerm (setUserPrice0 s) := by
  have ht : (setUserPrice0 s).taxRate = s.taxRate := rfl
  rw [taxTerm, taxTerm, ← subTerm_price0 s h, ht]

theorem taxTerm_qty0 (s : RawStep) (h : toBoolO s.quantity = false) :
    taxTerm s = taxTerm (setQuantity0 s) := by
  have ht : (setQuantity0 s).taxRate = s.taxRate := rfl
  rw [taxTerm, taxTerm, ← subTerm_qty0 s h, ht]

theorem taxTerm_tax0 (s : RawStep) (h : toBoolO s.taxRate = false) :
    taxTerm s = taxTerm (setTaxRate0 s) := by
  have h0 : toBoolO (some (JVal.num 0)) = false := by simp [toBoolO, toBoolV]
  have h1 : jsOrO s.taxRate (JVal.num 0) = JVal.num 0 := jsOr_falsy _ _ h
  have h2 : jsOrO (setTaxRate0 s).taxRate (JVal.num 0) = JVal.num 0 := jsOr_falsy _ _ h0
  rw [taxTerm, taxTerm, ← subTerm_tax0 s, h1, h2]

theorem mem_updateStepAt {l : List RawStep} {i : ℕ} {f : RawStep → RawStep} {s' : RawStep}
    (h : s' ∈ updateStepAt l i f) : s' ∈ l ∨ ∃ s ∈ l, s' = f s := by
  induction l generalizing i with
  | nil => simp [updateStepAt] at h
  | cons s t ih =>
    cases i with
    | zero =>
      simp only [updateStepAt, List.mem_cons] at h
      rcases h with h | h
      · exact Or.inr ⟨s, by simp, h⟩
      · exact Or.inl (by simp [h])
    | succ n =>
      simp only [updateStepAt, List.mem_cons] at h
      rcases h with h | h
      · exact Or.inl (by simp [h])
      · rcases ih h with h2 | ⟨x, hx, hfx⟩
        · exact Or.inl (by simp [h2])
        · exact Or.inr ⟨x, by simp [hx], hfx⟩

/-! ## Claims -/

/-- C1: for every list of quote steps (numeric fields), the totals
`useMemo` of `QuoteResult` satisfies `lineTotal(step) = userPrice *
quantity`, `lineTotalWithTax(step) = userPrice * quantity * (1 +
taxRate/100)`, `subtotal = sum of lineTotal`, `totalTax = sum of
lineTotal * taxRate/100` and `grandTotal = subtotal + totalTax` exactly;
the steps (50,1,0) and (30,3,10) give subtotal 140, totalTax 9 and
grandTotal 149. -/
theorem c1_totals_exact (p q t : ℚ) (ts : List (ℚ × ℚ × ℚ)) :
    lineTotal (mkNumStep p q t) = p * q ∧
    lineTotalWithTax (mkNumStep p q t) = p * q * (1 + t / 100) ∧
    subtotalCalc (ts.map (fun x => mkNumStep x.1 x.2.1 x.2.2)) =
      some (((ts.map (fun x => mkNumStep x.1 x.2.1 x.2.2)).map lineTotal).sum) ∧
    totalTaxCalc (ts.map (fun x => mkNumStep x.1 x.2.1 x.2.2)) =
      some ((ts.map (fun x => x.1 * x.2.1 * (x.2.2 / 100))).sum) ∧
    grandTotalCalc (ts.map (fun x => mkNumStep x.1 x.2.1 x.2.2)) =
      some (((ts.map (fun x => mkNumStep x.1 x.2.1 x.2.2)).map lineTotal).sum +
        ((ts.map (fun x => x.1 * x.2.1 * (x.2.2 / 100))).sum)) ∧
    subtotalCalc exampleSteps = some 140 ∧
    totalTaxCalc exampleSteps = some 9 ∧
    grandTotalCalc exampleSteps = some 149 := by
  have hsub : subtotalCalc (ts.map (fun x => mkNumStep x.1 x.2.1 x.2.2)) =
      some (((ts.map (fun x => mkNumStep x.1 x.2.1 x.2.2)).map lineTotal).sum) := by
    rw [subtotalCalc, foldl_jadd subTerm lineTotal]
    · rw [zero_add]
    · intro s hs
      rcases List.mem_map.1 hs with ⟨x, _, hx⟩
      rw [← hx, subTerm_num, lineTotal_num]
  have htax : totalTaxCalc (ts.map (fun x => mkNumStep x.1 x.2.1 x.2.2)) =
      some ((ts.map (fun x => x.1 * x.2.1 * (x.2.2 / 100))).sum) := by
    rw [totalTaxCalc,
      foldl_jadd taxTerm (fun s => orZero (toNumberO s.userPrice) *
        orZero (toNumberO s.quantity) * (orZero (toNumberO s.taxRate) / 100))]
    · rw [zero_add, List.map_map]
      rfl
    · intro s hs
      rcases List.mem_map.1 hs with ⟨x, _, hx⟩
      rw [← hx, taxTerm_num]
      rfl
  have hex1 : subtotalCalc exampleSteps = some 140 := by
    rw [exampleSteps, subtotalCalc, List.foldl_cons, List.foldl_cons, List.foldl_nil]
    have e1 : jadd (some 0) (subTerm (mkNumStep 50 1 0)) = some (0 + 50 * 1) := by
      rw [subTerm_num]; rfl
    have e2 : jadd (some (0 + 50 * 1)) (subTerm (mkNumStep 30 3 10)) =
        some (0 + 50 * 1 + 30 * 3) := by
      rw [subTerm_num]; rfl
    rw [e1, e2]
    norm_num
  have hex2 : totalTaxCalc exampleSteps = some 9 := by
    rw [exampleSteps, totalTaxCalc, List.foldl_cons, List.foldl_cons, List.foldl_nil]
    have e1 : jadd (some 0) (taxTerm (mkNumStep 50 1 0)) = some (0 + 50 * 1 * (0 / 100)) := by
      rw [taxTerm_num]; rfl
    have e2 : jadd (some (0 + 50 * 1 * (0 / 100))) (taxTerm (mkNumStep 30 3 10)) =
        some (0 + 50 * 1 * (0 / 100) + 30 * 3 * (10 / 100)) := by
      rw [taxTerm_num]; rfl
    rw [e1, e2]
    norm_num
  refine ⟨lineTotal_num p q t, lineTotalWithTax_num p q t, hsub, htax, ?_, hex1, hex2, ?_⟩
  · rw [grandTotalCalc, hsub, htax]; rfl
  · rw [grandTotalCalc, hex1, hex2]
    norm_num [jadd]

/-- C5 counterexample: a step whose `userPrice` is the truthy non-numeric
string "abc" does not contribute to subtotal/totalTax/grandTotal as if
that field were 0 — `Number("abc" || 0)` is NaN, which poisons all three
totals — refuting the claim at this concrete input. -/
theorem c5_counterexample :
    ¬ (subtotalCalc [ceBadStep] = subtotalCalc [setUserPrice0 ceBadStep] ∧
       totalTaxCalc [ceBadStep] = totalTaxCalc [setUserPrice0 ceBadStep] ∧
       grandTotalCalc [ceBadStep] = grandTotalCalc [setUserPrice0 ceBadStep]) := by
  intro h
  have h1 : subtotalCalc [ceBadStep] = none := by decide
  have h2 : subtotalCalc [setUserPrice0 ceBadStep] = some 0 := by
    simp [subtotalCalc, setUserPrice0, ceBadStep, mkStep, subTerm, jsOrO, toBoolV,
      toNumberV, jmul, jadd]
  rw [h1, h2] at h
  exact Option.noConfusion h.1

/-- C5 (amended): in the totals calculator of the main quote-editing
path, a step whose `userPrice`, `quantity` or `taxRate` is missing or
falsy (`undefined`, `null`, `NaN`, `false`, the empty string or 0)
contributes to subtotal, totalTax and grandTotal as if that field were
0; a truthy non-numeric value instead makes the affected totals NaN. -/
theorem c5_falsy_as_zero (s : RawStep) (l r : List RawStep) :
    (toBoolO s.userPrice = false →
      subtotalCalc (l ++ s :: r) = subtotalCalc (l ++ setUserPrice0 s :: r) ∧
      totalTaxCalc (l ++ s :: r) = totalTaxCalc (l ++ setUserPrice0 s :: r) ∧
      grandTotalCalc (l ++ s :: r) = grandTotalCalc (l ++ setUserPrice0 s :: r)) ∧
    (toBoolO s.quantity = false →
      subtotalCalc (l ++ s :: r) = subtotalCalc (l ++ setQuantity0 s :: r) ∧
      totalTaxCalc (l ++ s :: r) = totalTaxCalc (l ++ setQuantity0 s :: r) ∧
      grandTotalCalc (l ++ s :: r) = grandTotalCalc (l ++ setQuantity0 s :: r)) ∧
    (toBoolO s.taxRate = false →
      subtotalCalc (l ++ s :: r) = subtotalCalc (l ++ setTaxRate0 s :: r) ∧
      totalTaxCalc (l ++ s :: r) = totalTaxCalc (l ++ setTaxRate0 s :: r) ∧
      grandTotalCalc (l ++ s :: r) = grandTotalCalc (l ++ setTaxRate0 s :: r)) := by
  refine ⟨fun h => ?_, fun h => ?_, fun h => ?_⟩
  · have hs := foldl_jadd_replace subTerm s (setUserPrice0 s) (subTerm_price0 s h) l r (some 0)
    have ht := foldl_jadd_replace taxTerm s (setUserPrice0 s) (taxTerm_price0 s h) l r (some 0)
    exact ⟨hs, ht, by rw [grandTotalCalc, grandTotalCalc, subtotalCalc, subtotalCalc,
      totalTaxCalc, totalTaxCalc, hs, ht]⟩
  · have hs := foldl_jadd_replace subTerm s (setQuantity0 s) (subTerm_qty0 s h) l r (some 0)
    have ht := foldl_jadd_replace taxTerm s (setQuantity0 s) (taxTerm_qty0 s h) l r (some 0)
    exact ⟨hs, ht, by rw [grandTotalCalc, grandTotalCalc, subtotalCalc, subtotalCalc,
      totalTaxCalc, totalTaxCalc, hs, ht]⟩
  · have hs := foldl_jadd_replace subTerm s (setTaxRate0 s) (subTerm_tax0 s) l r (some 0)
    have ht := foldl_jadd_replace taxTerm s (setTaxRate0 s) (taxTerm_tax0 s h) l r (some 0)
    exact ⟨hs, ht, by rw [grandTotalCalc, grandTotalCalc, subtotalCalc, subtotalCalc,
      totalTaxCalc, totalTaxCalc, hs, ht]⟩

theorem c5_falsy_as_zero_witness :
    toBoolO (mkStep none none none).userPrice = false ∧
    subtotalCalc ([] ++ mkStep none none none :: [mkNumStep 30 3 10]) =
      subtotalCalc ([] ++ setUserPrice0 (mkStep none none none) :: [mkNumStep 30 3 10]) := by
  exact ⟨rfl, ((c5_falsy_as_zero (mkStep none none none) [] [mkNumStep 30 3 10]).1 rfl).1⟩

/-- C6: in the legacy history-listing path (`QuoteHistory`), a step with
missing or non-numeric `quantity` is priced with quantity 1 (`price * 1 *
(1 + taxRate/100)`), while the main totals calculator of `QuoteResult`
treats a missing `quantity` as 0 (the step contributes nothing). -/
theorem c6_quantity_default_split (p t : ℚ) (qv : Option JVal)
    (hq : toNumberO qv = none) :
    totalPrice [mkStep (some (JVal.num p)) qv (some (JVal.num t))] =
      (p * 1) * (1 + t / 100) ∧
    subtotalCalc [mkStep (some (JVal.num p)) none (some (JVal.num t))] = some 0 ∧
    totalTaxCalc [mkStep (some (JVal.num p)) none (some (JVal.num t))] = some 0 ∧
    grandTotalCalc [mkStep (some (JVal.num p)) none (some (JVal.num t))] = some 0 := by
  have e1 : subTerm (mkStep (some (JVal.num p)) none (some (JVal.num t))) = some (p * 0) := by
    simp only [subTerm, mkStep]
    rw [jsOr_num_zero]
    rfl
  have e2 : taxTerm (mkStep (some (JVal.num p)) none (some (JVal.num t))) =
      some (p * 0 * (t / 100)) := by
    have ht : (mkStep (some (JVal.num p)) none (some (JVal.num t))).taxRate =
        some (JVal.num t) := rfl
    rw [taxTerm, e1, ht, jsOr_num_zero]
    rfl
  have hs : subtotalCalc [mkStep (some (JVal.num p)) none (some (JVal.num t))] = some 0 := by
    simp only [subtotalCalc, List.foldl_cons, List.foldl_nil]
    rw [e1]
    show some (0 + p * 0) = some 0
    norm_num
  have ht : totalTaxCalc [mkStep (some (JVal.num p)) none (some (JVal.num t))] = some 0 := by
    simp only [totalTaxCalc, List.foldl_cons, List.foldl_nil]
    rw [e2]
    show some (0 + p * 0 * (t / 100)) = some 0
    norm_num
  refine ⟨?_, hs, ht, ?_⟩
  · simp only [totalPrice, List.foldl_cons, List.foldl_nil, mkStep]
    rw [hq]
    simp [toNumberO, toNumberV, orZero, orOne]
  · rw [grandTotalCalc, hs, ht]
    show some ((0 : ℚ) + 0) = some 0
    norm_num

theorem c6_quantity_default_split_witness :
    toNumberO (some (JVal.str "xx")) = none ∧
    totalPrice [mkStep (some (JVal.num 10)) (some (JVal.str "xx")) (some (JVal.num 23))] =
      (10 * 1) * (1 + 23 / 100) ∧
    subtotalCalc [mkStep (some (JVal.num 10)) none (some (JVal.num 23))] = some 0 := by
  have h : toNumberO (some (JVal.str "xx")) = none := by decide
  have := c6_quantity_default_split 10 23 (some (JVal.str "xx")) h
  exact ⟨h, this.1, this.2.1⟩

/-- C7: the quantity edit handler applies an edit only when the value
parses to a non-negative number, and all three field edit handlers
preserve the invariant that every numeric step quantity is
non-negative. -/
theorem c7_quantity_invariant (q : RawQuote) (i : ℕ) (v : String) (hq : QtyInv q) :
    QtyInv (handleQuantityChange q i v) ∧
    QtyInv (handlePriceChange q i v) ∧
    QtyInv (handleTaxChange q i v) := by
  refine ⟨?_, ?_, ?_⟩
  · rw [handleQuantityChange]
    cases hsn : strToNum v with
    | none => exact hq
    | some n =>
      by_cases hn : 0 ≤ n
      · simp only [hn, if_pos]
        intro s' hs' x hx
        simp only at hs'
        rcases mem_updateStepAt hs' with h | ⟨s, _, hfs⟩
        · exact hq s' h x hx
        · rw [hfs] at hx
          simp only at hx
          rcases Option.some.inj hx with h2
          rcases JVal.num.inj h2 with h3
          rw [← h3]; exact hn
      · simp only [hn, if_neg, not_false_iff]
        exact hq
  · rw [handlePriceChange]
    cases hsn : strToNum v with
    | none => exact hq
    | some n =>
      intro s' hs' x hx
      simp only at hs'
      rcases mem_updateStepAt hs' with h | ⟨s, hs, hfs⟩
      · exact hq s' h x hx
      · rw [hfs] at hx
        simp only at hx
        exact hq s hs x hx
  · rw [handleTaxChange]
    cases hsn : strToNum v with
    | none => exact hq
    | some n =>
      intro s' hs' x hx
      simp only at hs'
      rcases mem_updateStepAt hs' with h | ⟨s, hs, hfs⟩
      · exact hq s' h x hx
      · rw [hfs] at hx
        simp only at hx
        exact hq s hs x hx

theorem c7_quantity_invariant_witness :
    QtyInv q0 ∧
    (QtyInv (handleQuantityChange q0 0 "3") ∧
     QtyInv (handlePriceChange q0 0 "3") ∧
     QtyInv (handleTaxChange q0 0 "3")) := by
  have hq0 : QtyInv q0 := by
    intro s hs x hx
    simp only [q0, List.mem_singleton] at hs
    rw [hs] at hx
    simp only [mkNumStep, mkStep] at hx
    rcases JVal.num.inj (Option.some.inj hx) with h
    rw [← h]; norm_num
  exact ⟨hq0, c7_quantity_invariant q0 0 "3" hq0⟩

/-- C8: with no truthy credential in either environment source, the
module-level startup check fails with the missing-key error before any
service call is possible; with a credential present it succeeds. -/
theorem c8_startup_key_check (pk vk : Option String) :
    (strTruthy pk = false → strTruthy vk = false →
      startupCheck pk vk = Except.error apiKeyErrorMsg) ∧
    (∀ k : String, pk = some k → k ≠ "" → startupCheck pk vk = Except.ok k) ∧
    (∀ k : String, strTruthy pk = false → vk = some k → k ≠ "" →
      startupCheck pk vk = Except.ok k) := by
  refine ⟨fun h1 h2 => ?_, fun k hk hne => ?_, fun k h1 hk hne => ?_⟩
  · simp [startupCheck, getApiKey, h1, h2]
  · simp [startupCheck, getApiKey, strTruthy, hk, hne]
  · simp only [startupCheck, getApiKey, h1, hk]
    simp [strTruthy, hne]

theorem c8_startup_key_check_witness :
    startupCheck none none = Except.error apiKeyErrorMsg ∧
    ("chave" ≠ "" ∧ startupCheck (some "chave") none = Except.ok "chave") := by
  refine ⟨(c8_startup_key_check none none).1 rfl rfl, by decide, ?_⟩
  exact (c8_startup_key_check (some "chave") none).2.1 "chave" rfl (by decide)

/-- C9: updating a saved quote replaces exactly the stored quotes whose
`id` equals the updated quote's `id`, leaves every other stored quote
unchanged, and preserves the list's length and order. -/
theorem c9_update_by_id (prev : List RawQuote) (u : RawQuote) :
    (handleUpdateQuote prev u).length = prev.length ∧
    ∀ i : ℕ, ∀ q : RawQuote, prev[i]? = some q →
      ((q.id = u.id → (handleUpdateQuote prev u)[i]? = some u) ∧
       (q.id ≠ u.id → (handleUpdateQuote prev u)[i]? = some q)) := by
  refine ⟨by simp [handleUpdateQuote], fun i q hget => ⟨fun heq => ?_, fun hne => ?_⟩⟩
  · rw [handleUpdateQuote, List.getElem?_map, hget]
    simp [heq]
  · rw [handleUpdateQuote, List.getElem?_map, hget]
    simp [hne]

theorem c9_update_by_id_witness :
    (handleUpdateQuote [qA, qB] uB).length = [qA, qB].length ∧
    [qA, qB][1]? = some qB ∧ qB.id = uB.id ∧
    (handleUpdateQuote [qA, qB] uB)[1]? = some uB ∧
    [qA, qB][0]? = some qA ∧ qA.id ≠ uB.id ∧
    (handleUpdateQuote [qA, qB] uB)[0]? = some qA := by
  refine ⟨(c9_update_by_id [qA, qB] uB).1, rfl, rfl, ?_, rfl, by decide, ?_⟩
  · exact ((c9_update_by_id [qA, qB] uB).2 1 qB rfl).1 rfl
  · exact ((c9_update_by_id [qA, qB] uB).2 0 qA rfl).2 (by decide)

/-- C10: an edit whose value does not parse to a number (NaN), or a
negative value sent to the quantity handler, leaves the edited quote
entirely unchanged. -/
theorem c10_rejected_edit_noop (q : RawQuote) (i : ℕ) (v : String) :
    (strToNum v = none →
      handlePriceChange q i v = q ∧
      handleQuantityChange q i v = q ∧
      handleTaxChange q i v = q) ∧
    (∀ n : ℚ, strToNum v = some n → n < 0 → handleQuantityChange q i v = q) := by
  refine ⟨fun h => ⟨?_, ?_, ?_⟩, fun n h hn => ?_⟩
  · simp [handlePriceChange, h]
  · simp [handleQuantityChange, h]
  · simp [handleTaxChange, h]
  · simp [handleQuantityChange, h, not_le.2 hn]

theorem c10_rejected_edit_noop_witness :
    strToNum "abc" = none ∧
    handlePriceChange qW 0 "abc" = qW ∧
    handleQuantityChange qW 0 "abc" = qW ∧
    handleTaxChange qW 0 "abc" = qW ∧
    strToNum "-2" = some (-2) ∧
    handleQuantityChange qW 0 "-2" = qW := by
  have habc : strToNum "abc" = none := by decide
  have hneg : strToNum "-2" = some (-2) := by
    have e1 : strToNum "-2" =
        some (-((digitsToNat ['2'] : ℚ) * (10 : ℚ) ^ (0 : ℤ))) := rfl
    have e2 : (digitsToNat ['2'] : ℚ) = 2 := by
      have : digitsToNat ['2'] = 2 := by decide
      rw [this]; norm_num
    rw [e1, e2]
    norm_num
  have h1 := (c10_rejected_edit_noop qW 0 "abc").1 habc
  have h2 := (c10_rejected_edit_noop qW 0 "-2").2 (-2) hneg (by norm_num)
  exact ⟨habc, h1.1, h1.2.1, h1.2.2, hneg, h2⟩

theorem getProp_nonNull {s : JVal} (h : s ≠ JVal.null) (k : String) :
    getProp s k = Except.ok (fieldLookup s k) := by
  cases s
  case null => exact absurd rfl h
  all_goals rfl

theorem parseStep_nonNull {s : JVal} (h : s ≠ JVal.null) :
    parseStep s = Except.ok (parsedStepOf s) := by
  cases s
  case null => exact absurd rfl h
  all_goals rfl

theorem mapParseSteps_ok {xs : List JVal} (h : ∀ s ∈ xs, s ≠ JVal.null) :
    mapParseSteps xs = Except.ok (xs.map parsedStepOf) := by
  induction xs with
  | nil => rfl
  | cons s rest ih =>
    have hs := parseStep_nonNull (h s (by simp))
    have hr := ih (fun x hx => h x (by simp [hx]))
    rw [mapParseSteps, hs, hr]
    rfl

/-- C2 counterexample: `{"title":"T","steps":[null]}` is valid
quote-shaped JSON (truthy `title`, array `steps`), yet the parser does
not return a normalized step list: `step.suggestedPrice` on the null
element throws a TypeError, so the quote-building fails and the whole
operation surfaces the malformed-response error — refuting the claim at
this concrete input. -/
theorem c2_counterexample :
    getProp vNull "title" = Except.ok (some (JVal.str "T")) ∧
    getProp vNull "steps" = Except.ok (some (JVal.arr [JVal.null])) ∧
    quoteFromJson vNull = Except.error typeErrorMsg ∧
    (∀ p : ParsedQuote, quoteFromJson vNull ≠ Except.ok p) ∧
    generateQuoteParse vNullText = Except.error malformedMsg := by
  refine ⟨rfl, rfl, rfl, ?_, rfl⟩
  intro p hp
  rw [show quoteFromJson vNull = Except.error typeErrorMsg from rfl] at hp
  exact Except.noConfusion hp

/-- C2 (amended): on parsed JSON with a truthy `title` and an array
`steps` none of whose elements is null, the quote parser succeeds with a
step list of the same length; each output step resolves its unit price
from a non-nullish nested `suggestedPrice.unitPrice`, else from the
`suggestedPrice` field itself, else 0; `userPrice` equals the (coerced)
resolved unit price, which is also stored as `suggestedPrice`;
`quantity` defaults to 1 when `suggestedQuantity` is absent; and
`taxRate` is initialized to 0. A null steps element instead aborts the
parse with a TypeError (surfaced as the malformed-response error). -/
theorem c2_step_normalization (v : JVal) (xs : List JVal) (tv : Option JVal)
    (htitle : getProp v "title" = Except.ok tv)
    (htruthy : toBoolO tv = true)
    (hsteps : getProp v "steps" = Except.ok (some (JVal.arr xs)))
    (hnn : ∀ s ∈ xs, s ≠ JVal.null) :
    ∃ p : ParsedQuote, quoteFromJson v = Except.ok p ∧
      p.steps.length = xs.length ∧
      ∀ i : ℕ, ∀ s : JVal, xs[i]? = some s →
        ∃ o : ParsedStep, p.steps[i]? = some o ∧
          (jsNullishO (optChain (fieldLookup s "suggestedPrice") "unitPrice") = false →
            o.userPrice = toNumberO (optChain (fieldLookup s "suggestedPrice") "unitPrice")) ∧
          (jsNullishO (optChain (fieldLookup s "suggestedPrice") "unitPrice") = true →
            jsNullishO (fieldLookup s "suggestedPrice") = false →
            o.userPrice = toNumberO (fieldLookup s "suggestedPrice")) ∧
          (jsNullishO (optChain (fieldLookup s "suggestedPrice") "unitPrice") = true →
            jsNullishO (fieldLookup s "suggestedPrice") = true →
            o.userPrice = some 0) ∧
          o.suggestedPrice = o.userPrice ∧
          (fieldLookup s "suggestedQuantity" = none → o.quantity = some 1) ∧
          o.taxRate = 0 := by
  have hv : v ≠ JVal.null := by
    intro hvn
    rw [hvn] at htitle
    exact Except.noConfusion htitle
  refine ⟨{ title := tv
            summary := fieldLookup v "summary"
            executionTime := jsOrO (fieldLookup v "executionTime") (JVal.str "A definir")
            paymentTerms := jsOrO (fieldLookup v "paymentTerms") (JVal.str "A combinar")
            steps := xs.map parsedStepOf }, ?_, by simp, ?_⟩
  · rw [quoteFromJson, htitle]
    simp only [htruthy, if_true]
    rw [hsteps]
    simp only [mapParseSteps_ok hnn]
    rw [getProp_nonNull hv "summary", getProp_nonNull hv "executionTime",
      getProp_nonNull hv "paymentTerms"]
  · intro i s hs
    refine ⟨parsedStepOf s, by rw [List.getElem?_map, hs]; rfl, ?_, ?_, ?_, rfl, ?_, rfl⟩
    · intro hA
      simp only [parsedStepOf, coalesce, hA, Bool.false_eq_true, if_false]
    · intro hA hB
      simp only [parsedStepOf, coalesce, hA, hB, Bool.false_eq_true, if_true, if_false]
    · intro hA hB
      simp only [parsedStepOf, coalesce, hA, hB, if_true]
      rfl
    · intro hq
      simp only [parsedStepOf, coalesce, hq]
      rfl

theorem c2_step_normalization_witness :
    getProp vex "title" = Except.ok (some (JVal.str "Pintura")) ∧
    toBoolO (some (JVal.str "Pintura")) = true ∧
    getProp vex "steps" = Except.ok (some (JVal.arr vexSteps)) ∧
    (∀ s ∈ vexSteps, s ≠ JVal.null) ∧
    (∃ p : ParsedQuote, quoteFromJson vex = Except.ok p ∧
      p.steps.length = vexSteps.length ∧
      ∀ i : ℕ, ∀ s : JVal, vexSteps[i]? = some s →
        ∃ o : ParsedStep, p.steps[i]? = some o ∧
          (jsNullishO (optChain (fieldLookup s "suggestedPrice") "unitPrice") = false →
            o.userPrice = toNumberO (optChain (fieldLookup s "suggestedPrice") "unitPrice")) ∧
          (jsNullishO (optChain (fieldLookup s "suggestedPrice") "unitPrice") = true →
            jsNullishO (fieldLookup s "suggestedPrice") = false →
            o.userPrice = toNumberO (fieldLookup s "suggestedPrice")) ∧
          (jsNullishO (optChain (fieldLookup s "suggestedPrice") "unitPrice") = true →
            jsNullishO (fieldLookup s "suggestedPrice") = true →
            o.userPrice = some 0) ∧
          o.suggestedPrice = o.userPrice ∧
          (fieldLookup s "suggestedQuantity" = none → o.quantity = some 1) ∧
          o.taxRate = 0) := by
  have hnn : ∀ s ∈ vexSteps, s ≠ JVal.null := by
    intro s hs
    simp only [vexSteps, List.mem_cons, List.mem_singleton] at hs
    rcases hs with rfl | rfl | rfl | h
    · simp [vexStep1]
    · simp [vexStep2]
    · simp [vexStep3]
    · simp at h
  exact ⟨rfl, rfl, rfl, hnn,
    c2_step_normalization vex vexSteps (some (JVal.str "Pintura")) rfl rfl rfl hnn⟩

/-- C3: contrary to the claim, a syntactically valid JSON response that
lacks the `steps` array does NOT surface the UnexpectedShape error: the
shape-mismatch error is thrown inside the same `try` block whose `catch`
replaces every exception with the MalformedResponse message, so both
failure modes surface the identical malformed-JSON error. The first
conjunct shows the distinct shape message exists internally before the
`catch` discards it. -/
theorem c3_shape_error_swallowed :
    tryBlockQuote shapeBadInput = Except.error shapeErrMsg ∧
    generateQuoteParse shapeBadInput = Except.error malformedMsg ∧
    generateQuoteParse synBadInput = Except.error malformedMsg ∧
    generateQuoteParse shapeBadInput = generateQuoteParse synBadInput := by
  refine ⟨?_, ?_, ?_, ?_⟩ <;> rfl

/-! ### Lemmas about backtick runs, trimming and the fence regex -/

theorem swt_tail_indep (a b c : Char) (r r' : List Char) :
    startsWithTicks (a :: b :: c :: r) = startsWithTicks (a :: b :: c :: r') := rfl

theorem containsTriple_head_eq (a b c : Char) (t : List Char) :
    containsTriple (a :: b :: c :: t) =
      (startsWithTicks (a :: b :: c :: t) || containsTriple (b :: c :: t)) := rfl

theorem containsTriple_tail {c : Char} {t : List Char}
    (h : containsTriple (c :: t) = false) : containsTriple t = false := by
  cases t with
  | nil => rfl
  | cons d t2 =>
    cases t2 with
    | nil => rfl
    | cons e t3 =>
      rw [containsTriple_head_eq] at h
      exact (Bool.or_eq_false_iff.mp h).2

theorem containsTriple_cons_lift {t : List Char} (c : Char)
    (h : containsTriple t = true) : containsTriple (c :: t) = true := by
  cases t with
  | nil => simp [containsTriple] at h
  | cons d t2 =>
    cases t2 with
    | nil => simp [containsTriple] at h
    | cons e t3 =>
      rw [containsTriple_head_eq c d e t3, h, Bool.or_true]

theorem containsTriple_append_right {l : List Char}
    (h : containsTriple l = true) (t : List Char) : containsTriple (l ++ t) = true := by
  induction l with
  | nil => simp [containsTriple] at h
  | cons a l2 ih =>
    cases l2 with
    | nil => simp [containsTriple] at h
    | cons b l3 =>
      cases l3 with
      | nil => simp [containsTriple] at h
      | cons c2 l4 =>
        rw [containsTriple_head_eq] at h
        simp only [List.cons_append]
        rcases Bool.or_eq_true_iff.mp h with h1 | h2
        · rw [containsTriple_head_eq, swt_tail_indep a b c2 (l4 ++ t) l4, h1, Bool.true_or]
        · have h3 := ih h2
          simp only [List.cons_append] at h3
          rw [containsTriple_head_eq, h3, Bool.or_true]

theorem containsTriple_append_left {t : List Char}
    (h : containsTriple t = true) (l : List Char) : containsTriple (l ++ t) = true := by
  induction l with
  | nil => simpa using h
  | cons a l2 ih =>
    rw [List.cons_append]
    exact containsTriple_cons_lift a ih

theorem containsTriple_pre_false {l₁ l₂ : List Char} (hp : l₁ <+: l₂)
    (h : containsTriple l₂ = false) : containsTriple l₁ = false := by
  cases hc : containsTriple l₁ with
  | false => rfl
  | true =>
    obtain ⟨t, rfl⟩ := hp
    rw [containsTriple_append_right hc t] at h
    exact Bool.noConfusion h

theorem containsTriple_suf_false {l₁ l₂ : List Char} (hs : l₁ <:+ l₂)
    (h : containsTriple l₂ = false) : containsTriple l₁ = false := by
  cases hc : containsTriple l₁ with
  | false => rfl
  | true =>
    obtain ⟨t, rfl⟩ := hs
    rw [containsTriple_append_left hc t] at h
    exact Bool.noConfusion h

theorem rtrimWs_pre (t : List Char) : rtrimWs t <+: t := by
  induction t with
  | nil => simp [rtrimWs]
  | cons c t' ih =>
    simp only [rtrimWs]
    cases hr : rtrimWs t' with
    | nil =>
      by_cases hc : isWs c = true
      · simp [hc]
      · simp only [hc, if_false, Bool.false_eq_true]
        rw [List.cons_prefix_cons]
        exact ⟨rfl, List.nil_prefix⟩
    | cons d r =>
      rw [List.cons_prefix_cons]
      exact ⟨rfl, hr ▸ ih⟩

theorem rtrimWs_all_nil {t : List Char} (h : t.all isWs = true) : rtrimWs t = [] := by
  induction t with
  | nil => rfl
  | cons c t' ih =>
    rw [List.all_cons, Bool.and_eq_true] at h
    simp only [rtrimWs, ih h.2, h.1, if_true]

theorem rtrimWs_ne_nil {t : List Char} (h : t.all isWs = false) : rtrimWs t ≠ [] := by
  induction t with
  | nil => simp at h
  | cons c t' ih =>
    rw [List.all_cons, Bool.and_eq_false_iff] at h
    simp only [rtrimWs]
    cases hr : rtrimWs t' with
    | nil =>
      rcases h with h | h
      · simp [h]
      · exact absurd hr (ih h)
    | cons d r => simp

theorem rtrimWs_cons {c : Char} {t : List Char}
    (h : isWs c = false ∨ t.all isWs = false) :
    rtrimWs (c :: t) = c :: rtrimWs t := by
  simp only [rtrimWs]
  cases hr : rtrimWs t with
  | nil =>
    rcases h with h | h
    · simp [h]
    · exact absurd hr (rtrimWs_ne_nil h)
  | cons d r => rfl

theorem dropWhile_append_nil {p : Char → Bool} {a : List Char}
    (h : List.dropWhile p a = []) (b : List Char) :
    List.dropWhile p (a ++ b) = List.dropWhile p b := by
  induction a with
  | nil => rfl
  | cons x a2 ih =>
    rw [List.dropWhile_cons] at h
    rw [List.cons_append, List.dropWhile_cons]
    by_cases hp : p x = true
    · rw [if_pos hp]
      rw [if_pos hp] at h
      exact ih h
    · rw [if_neg hp] at h
      exact absurd h (by simp)

theorem dropWhile_append_cons {p : Char → Bool} {a : List Char} {x : Char} {xs : List Char}
    (h : List.dropWhile p a = x :: xs) (b : List Char) :
    List.dropWhile p (a ++ b) = x :: (xs ++ b) := by
  induction a with
  | nil => simp at h
  | cons y a2 ih =>
    rw [List.dropWhile_cons] at h
    rw [List.cons_append, List.dropWhile_cons]
    by_cases hp : p y = true
    · rw [if_pos hp]
      rw [if_pos hp] at h
      exact ih h
    · rw [if_neg hp]
      rw [if_neg hp] at h
      injection h with h1 h2
      rw [h1, h2]

theorem dropWhile_head_false {p : Char → Bool} {l : List Char} {x : Char} {xs : List Char}
    (h : List.dropWhile p l = x :: xs) : p x = false := by
  induction l with
  | nil => simp at h
  | cons y l2 ih =>
    rw [List.dropWhile_cons] at h
    by_cases hp : p y = true
    · rw [if_pos hp] at h
      exact ih h
    · rw [if_neg hp] at h
      injection h with h1 _
      rw [← h1]
      exact Bool.not_eq_true _ ▸ hp

theorem rtrim_append_last {c : Char} (hc : isWs c = false) (l : List Char) :
    rtrimWs (l ++ [c]) = l ++ [c] := by
  induction l with
  | nil => simp [rtrimWs, hc]
  | cons a l2 ih =>
    rw [List.cons_append]
    simp only [rtrimWs]
    cases hl : rtrimWs (l2 ++ [c]) with
    | nil =>
      rw [ih] at hl
      exact absurd hl (by simp)
    | cons d r =>
      have hd : d :: r = l2 ++ [c] := by rw [← hl]; exact ih
      exact congrArg (List.cons a) hd

theorem swt_newline1 (r : List Char) : startsWithTicks ('\n' :: r) = false := by
  have hd : decide ('\n' = backtick) = false := by decide
  cases r with
  | nil => rfl
  | cons b r2 =>
    cases r2 with
    | nil => rfl
    | cons c r3 => simp [startsWithTicks, hd]

theorem swt_newline2 (a : Char) (r : List Char) :
    startsWithTicks (a :: '\n' :: r) = false := by
  have hd : decide ('\n' = backtick) = false := by decide
  cases r with
  | nil => rfl
  | cons c r2 => simp [startsWithTicks, hd]

theorem swt_newline3 (a b : Char) (r : List Char) :
    startsWithTicks (a :: b :: '\n' :: r) = false := by
  have hd : decide ('\n' = backtick) = false := by decide
  simp [startsWithTicks, hd]

theorem ticksCond {t : List Char} (h : containsTriple t = false) :
    startsWithTicks
      (List.dropWhile isWs (t ++ '\n' :: backtick :: backtick :: backtick :: [])) =
      t.all isWs := by
  induction t with
  | nil => decide
  | cons c t' ih =>
    have ht' : containsTriple t' = false := containsTriple_tail h
    rw [List.cons_append, List.dropWhile_cons]
    by_cases hc : isWs c = true
    · rw [if_pos hc, ih ht', List.all_cons, hc, Bool.true_and]
    · have hc' : isWs c = false := by simpa using hc
      rw [if_neg hc, List.all_cons, hc', Bool.false_and]
      cases t' with
      | nil => exact swt_newline2 c _
      | cons d t2 =>
        cases t2 with
        | nil => exact swt_newline3 c d _
        | cons e t3 =>
          have h1 : startsWithTicks (c :: d :: e :: t3) = false := by
            rw [containsTriple_head_eq] at h
            exact (Bool.or_eq_false_iff.mp h).1
          simp only [List.cons_append]
          rw [swt_tail_indep c d e _ t3]
          exact h1

theorem scanClose_closing {t : List Char} (h : containsTriple t = false) :
    scanClose (t ++ '\n' :: backtick :: backtick :: backtick :: []) =
      some (rtrimWs t) := by
  induction t with
  | nil => decide
  | cons c t' ih =>
    have ht' : containsTriple t' = false := containsTriple_tail h
    rw [List.cons_append, scanClose]
    rw [show (c :: (t' ++ '\n' :: backtick :: backtick :: backtick :: [])) =
      ((c :: t') ++ '\n' :: backtick :: backtick :: backtick :: []) from rfl]
    rw [ticksCond h]
    cases hall : (c :: t').all isWs with
    | true =>
      rw [if_pos rfl]
      rw [rtrimWs_all_nil hall]
    | false =>
      rw [if_neg (by simp)]
      rw [ih ht', Option.map_some']
      rw [List.all_cons, Bool.and_eq_false_iff] at hall
      rw [rtrimWs_cons hall]

theorem stripFenceCore_none {cs : List Char} (h : containsTriple cs = false) :
    stripFenceCore cs = none := by
  induction cs with
  | nil => rfl
  | cons c r ih =>
    have hswt : startsWithTicks (c :: r) = false := by
      cases r with
      | nil => rfl
      | cons d r2 =>
        cases r2 with
        | nil => rfl
        | cons e r3 =>
          rw [containsTriple_head_eq] at h
          exact (Bool.or_eq_false_iff.mp h).1
    rw [stripFenceCore, if_neg (by simp [hswt])]
    exact ih (containsTriple_tail h)

theorem parseValue_bt (fuel : ℕ) (r : List Char) :
    parseValue fuel (backtick :: r) = none := by
  have hnum : parseNum (backtick :: r) = none := by
    simp only [parseNum, List.takeWhile_cons]
    rw [if_neg (by decide : ¬ (Char.isDigit backtick = true))]
    rfl
  cases fuel with
  | zero => rfl
  | succ n =>
    simp only [parseValue]
    split
    · rename_i heq; injection heq with h1 _; exact absurd h1 (by decide)
    · rename_i heq; injection heq with h1 _; exact absurd h1 (by decide)
    · rename_i heq; injection heq with h1 _; exact absurd h1 (by decide)
    · rename_i heq; injection heq with h1 _; exact absurd h1 (by decide)
    · rename_i heq; injection heq with h1 _; exact absurd h1 (by decide)
    · rename_i heq; injection heq with h1 _; exact absurd h1 (by decide)
    · rename_i heq; injection heq with h1 _; exact absurd h1 (by decide)
    · rw [hnum]; rfl

theorem jsonParse_bt (r : List Char) : jsonParse (backtick :: r) = none := by
  rw [jsonParse]
  have hskip : skipJWs (backtick :: r) = backtick :: r := by
    rw [skipJWs, List.dropWhile_cons, if_neg (by decide : ¬ (isJsonWs backtick = true))]
  rw [hskip, parseValue_bt]

theorem ltrim_wrapTagged (s : List Char) : ltrimWs (wrapTagged s) = wrapTagged s := by
  rw [wrapTagged, ltrimWs, List.dropWhile_cons, if_neg (by decide : ¬ (isWs backtick = true))]

theorem ltrim_wrapPlain (s : List Char) : ltrimWs (wrapPlain s) = wrapPlain s := by
  rw [wrapPlain, ltrimWs, List.dropWhile_cons, if_neg (by decide : ¬ (isWs backtick = true))]

theorem trim_wrapTagged (s : List Char) : trimWs (wrapTagged s) = wrapTagged s := by
  rw [trimWs, ltrim_wrapTagged]
  have h2 : wrapTagged s =
      (backtick :: backtick :: backtick :: 'j' :: 's' :: 'o' :: 'n' :: '\n' ::
        (s ++ ['\n', backtick, backtick])) ++ [backtick] := by
    simp [wrapTagged]
  rw [h2, rtrim_append_last (by decide)]

theorem trim_wrapPlain (s : List Char) : trimWs (wrapPlain s) = wrapPlain s := by
  rw [trimWs, ltrim_wrapPlain]
  have h2 : wrapPlain s =
      (backtick :: backtick :: backtick :: '\n' ::
        (s ++ ['\n', backtick, backtick])) ++ [backtick] := by
    simp [wrapPlain]
  rw [h2, rtrim_append_last (by decide)]

theorem generateQuoteParse_congr {t1 t2 : List Char}
    (h : candidateText t1 = candidateText t2) :
    generateQuoteParse t1 = generateQuoteParse t2 := by
  rw [generateQuoteParse, generateQuoteParse, tryBlockQuote, tryBlockQuote, h]

theorem candidateText_self {s : List Char} (h : containsTriple s = false) :
    candidateText s = trimWs s := by
  have htr : containsTriple (trimWs s) = false := by
    refine containsTriple_pre_false (rtrimWs_pre (ltrimWs s)) ?_
    exact containsTriple_suf_false (List.dropWhile_suffix isWs) h
  rw [candidateText, stripFenceCore_none htr]

/-- The inner content the fence regex extracts from a wrapped payload:
the trimmed payload. Stated for the part of the wrapped text after the
fence opening and optional tag. -/
theorem matchAt_inner {s : List Char} (h : containsTriple s = false) :
    scanClose (List.dropWhile isWs
      ('\n' :: (s ++ '\n' :: backtick :: backtick :: backtick :: []))) =
      some (rtrimWs (ltrimWs s)) := by
  rw [List.dropWhile_cons, if_pos (by decide : isWs '\n' = true)]
  cases hlt : ltrimWs s with
  | nil =>
    rw [ltrimWs] at hlt
    rw [dropWhile_append_nil hlt]
    decide
  | cons x s2 =>
    rw [ltrimWs] at hlt
    rw [dropWhile_append_cons hlt]
    have hx : containsTriple (x :: s2) = false := by
      refine containsTriple_suf_false ?_ h
      rw [← hlt]
      exact List.dropWhile_suffix isWs
    rw [show (x :: (s2 ++ '\n' :: backtick :: backtick :: backtick :: [])) =
      ((x :: s2) ++ '\n' :: backtick :: backtick :: backtick :: []) from rfl]
    rw [scanClose_closing hx]

theorem matchAt_wrapTagged {s : List Char} (h : containsTriple s = false) :
    matchAt (wrapTagged s) = some (trimWs s) := by
  have hm : matchAt (wrapTagged s) =
      scanClose (List.dropWhile isWs
        ('\n' :: (s ++ '\n' :: backtick :: backtick :: backtick :: []))) := rfl
  rw [hm, matchAt_inner h, trimWs]

theorem matchAt_wrapPlain {s : List Char} (h : containsTriple s = false) :
    matchAt (wrapPlain s) = some (trimWs s) := by
  have hA : (wrapPlain s).drop 3 =
      '\n' :: (s ++ '\n' :: backtick :: backtick :: backtick :: []) := rfl
  have hc : ¬ ((('\n' : Char) :: (s ++ '\n' :: backtick :: backtick :: backtick :: [])).take 4 =
      ['j', 's', 'o', 'n']) := by
    intro hcontra
    injection hcontra with h1 _
    exact absurd h1 (by decide)
  simp only [matchAt, hA]
  rw [if_neg hc, trimWs]
  exact matchAt_inner h

theorem stripFenceCore_wrapTagged {s : List Char} (h : containsTriple s = false) :
    stripFenceCore (wrapTagged s) = some (trimWs s) := by
  show stripFenceCore (backtick :: (backtick :: backtick :: 'j' :: 's' :: 'o' :: 'n' :: '\n' ::
    (s ++ '\n' :: backtick :: backtick :: backtick :: []))) = some (trimWs s)
  rw [stripFenceCore]
  rw [if_pos (by rfl)]
  have := matchAt_wrapTagged h
  rw [show matchAt (backtick :: (backtick :: backtick :: 'j' :: 's' :: 'o' :: 'n' :: '\n' ::
    (s ++ '\n' :: backtick :: backtick :: backtick :: []))) = some (trimWs s) from this]

theorem stripFenceCore_wrapPlain {s : List Char} (h : containsTriple s = false) :
    stripFenceCore (wrapPlain s) = some (trimWs s) := by
  show stripFenceCore (backtick :: (backtick :: backtick :: '\n' ::
    (s ++ '\n' :: backtick :: backtick :: backtick :: []))) = some (trimWs s)
  rw [stripFenceCore]
  rw [if_pos (by rfl)]
  have := matchAt_wrapPlain h
  rw [show matchAt (backtick :: (backtick :: backtick :: '\n' ::
    (s ++ '\n' :: backtick :: backtick :: backtick :: []))) = some (trimWs s) from this]

/-- When a backtick-headed wrapped text trims to itself and its fence
strip yields the trimmed payload, parsing it agrees with parsing the
payload (covers the falsy empty-capture fallback as well). -/
theorem wrapKey {s : List Char} (h : containsTriple s = false) (rest : List Char)
    (htw : trimWs (backtick :: rest) = backtick :: rest)
    (hsf : stripFenceCore (backtick :: rest) = some (trimWs s)) :
    generateQuoteParse (backtick :: rest) = generateQuoteParse s := by
  have hcs : candidateText s = trimWs s := candidateText_self h
  by_cases he : (trimWs s).isEmpty = true
  · have hnil : trimWs s = [] := List.isEmpty_iff.mp he
    have hcw : candidateText (backtick :: rest) = backtick :: rest := by
      simp only [candidateText, htw, hsf, he, if_true]
    have hj1 : jsonParse (candidateText (backtick :: rest)) = none := by
      rw [hcw]
      exact jsonParse_bt rest
    have hj2 : jsonParse (candidateText s) = none := by
      rw [hcs, hnil]
      rfl
    rw [generateQuoteParse, generateQuoteParse, tryBlockQuote, tryBlockQuote, hj1, hj2]
  · have hne : (trimWs s).isEmpty = false := by simpa using he
    have hcw : candidateText (backtick :: rest) = trimWs s := by
      simp only [candidateText, htw, hsf, hne, Bool.false_eq_true, if_false]
    exact generateQuoteParse_congr (hcw.trans hcs.symm)

/-! ### C4 -/

/-- C4 counterexample: the valid JSON payload
`{"title":"a```b","steps":[]}` (backticks inside a string value) parses
successfully unwrapped, but wrapped in a `json`-tagged fenced block the
lazy regex cuts the capture at the inner backticks and parsing fails —
refuting the claim that wrapping never changes the result. -/
theorem c4_counterexample :
    generateQuoteParse (wrapTagged fencedCePayload) ≠ generateQuoteParse fencedCePayload := by
  intro h
  have h1 : (generateQuoteParse (wrapTagged fencedCePayload)).isOk = false := rfl
  have h2 : (generateQuoteParse fencedCePayload).isOk = true := rfl
  rw [h, h2] at h1
  exact Bool.noConfusion h1

/-- C4 (amended): for every JSON payload that does not itself contain a
run of three backticks, running the quote parser on the payload wrapped
in a fenced code block — tagged `json` or untagged — yields the same
result as running it on the unwrapped payload. -/
theorem c4_fence_roundtrip (s : List Char) (h : containsTriple s = false) :
    generateQuoteParse (wrapTagged s) = generateQuoteParse s ∧
    generateQuoteParse (wrapPlain s) = generateQuoteParse s := by
  constructor
  · exact wrapKey h
      (backtick :: backtick :: 'j' :: 's' :: 'o' :: 'n' :: '\n' ::
        (s ++ '\n' :: backtick :: backtick :: backtick :: []))
      (trim_wrapTagged s) (stripFenceCore_wrapTagged h)
  · exact wrapKey h
      (backtick :: backtick :: '\n' ::
        (s ++ '\n' :: backtick :: backtick :: backtick :: []))
      (trim_wrapPlain s) (stripFenceCore_wrapPlain h)

theorem c4_fence_roundtrip_witness :
    containsTriple simplePayload = false ∧
    generateQuoteParse (wrapTagged simplePayload) = generateQuoteParse simplePayload ∧
    generateQuoteParse (wrapPlain simplePayload) = generateQuoteParse simplePayload := by
  have h : containsTriple simplePayload = false := by decide
  exact ⟨h, (c4_fence_roundtrip simplePayload h).1, (c4_fence_roundtrip simplePayload h).2⟩

end Orcamentos
